import Mathlib

/-!
Shallow embedding of the slackcli command-line client (TypeScript sources:
src/commands/files.ts holding the `files` and `conversations` commands,
src/commands/drafts.ts, and the `messages` command file), together with
theorems checking the repository's specification claims.

JavaScript strings are modelled as Lean `String`; JS string comparison
(`<`, `>`) is code-unit lexicographic and is modelled directly by `jsLt`
on the underlying character lists.  JS falsy tests on optional strings
(`x || y`, `if (!x)`) are modelled through `strVal`, which maps a missing
value to the empty string.
-/

/-- Value of an optional JS string: `undefined`/missing becomes `""`, so JS
truthiness of the field is the `≠ ""` test on the result. -/
def strVal (o : Option String) : String := o.getD ""

/-- JS `<` on strings, on the underlying character lists: code-unit
lexicographic comparison (code units compared as naturals). -/
def jsLtChars : List Char → List Char → Bool
  | [], [] => false
  | [], _ :: _ => true
  | _ :: _, [] => false
  | a :: as, b :: bs =>
    if a.toNat < b.toNat then true
    else if b.toNat < a.toNat then false
    else jsLtChars as bs

/-- JS `a < b` on strings. -/
def jsLt (a b : String) : Bool := jsLtChars a.data b.data

/-- JS `a <= b` on strings: the negation of `b < a` under the total order. -/
def jsLe (a b : String) : Bool := !(jsLt b a)

/-! ### Character-level string helpers (JS `split`, `trim`, `startsWith`) -/

/-- Accumulator pass for JS `String.prototype.split` with a one-character
separator: scans the characters, cutting at each separator occurrence. -/
def jsSplitGo (sep : Char) : List Char → List Char → List String
  | [], acc => [⟨acc.reverse⟩]
  | c :: rest, acc =>
    if c = sep then ⟨acc.reverse⟩ :: jsSplitGo sep rest []
    else jsSplitGo sep rest (c :: acc)

/-- JS `s.split(sep)` for a single-character separator. -/
def jsSplit (sep : Char) (s : String) : List String := jsSplitGo sep s.data []

/-- JS `s.split('\n')`, used by the VTT parser. -/
def splitLines (s : String) : List String := jsSplit '\n' s

/-- Join character lists with a separator character between parts; the
inverse of `jsSplitGo` and the model of rebuilding a name from its
`split('.')` parts. -/
def joinWith (sep : Char) : List String → List Char
  | [] => []
  | [p] => p.data
  | p :: ps => p.data ++ sep :: joinWith sep ps

/-- Join name parts with `'.'`, as a `String`. -/
def joinDot (parts : List String) : String := ⟨joinWith '.' parts⟩

/-- Whitespace trim on a character list (JS `trim` strips both ends). -/
def trimChars (l : List Char) : List Char :=
  ((l.dropWhile Char.isWhitespace).reverse.dropWhile Char.isWhitespace).reverse

/-- JS `s.trim()`. -/
def jsTrim (s : String) : String := ⟨trimChars s.data⟩

/-- JS `s.startsWith(pre)`. -/
def jsStartsWith (s pre : String) : Bool := pre.data.isPrefixOf s.data

/-! ### VTT transcript reduction (src/lib/vtt-parser.ts `parseVttToText`) -/

/-- Scan for the substring `-->` (JS `line.includes('-->')`). -/
def hasArrowAux : List Char → Bool
  | '-' :: '-' :: '>' :: _ => true
  | _ :: rest => hasArrowAux rest
  | [] => false

/-- JS `line.includes('-->')`. -/
def hasArrow (s : String) : Bool := hasArrowAux s.data

/-- JS regex test `/^\d+$/.test(t)`: nonempty and all decimal digits. -/
def testDigits (t : String) : Bool := !(t == "") && t.data.all (fun c => c.isDigit)

/-- Fuelled scanner for the JS global replace `line.replace(/<[^>]+>/g, '')`:
at each `<`, the regex removes up to the first following `>` provided at
least one character lies between them; otherwise the `<` is kept and the
scan moves on.  Fuel `= length` always suffices since every step consumes
at least one character. -/
def stripTagsGo : Nat → List Char → List Char
  | _, [] => []
  | 0, l => l
  | fuel + 1, c :: rest =>
    if c = '<' then
      match rest.findIdx? (fun d => d = '>') with
      | some k => if 1 ≤ k then stripTagsGo fuel (rest.drop (k + 1)) else c :: stripTagsGo fuel rest
      | none => c :: stripTagsGo fuel rest
    else c :: stripTagsGo fuel rest

/-- JS `line.replace(/<[^>]+>/g, '')`. -/
def stripTags (s : String) : String := ⟨stripTagsGo s.data.length s.data⟩

/-- Line filter of `parseVttToText`: keep a line when its trim is nonempty,
does not start with `WEBVTT`, does not contain `-->`, and is not a pure
digit sequence. -/
def keepVttLine (line : String) : Bool :=
  let trimmed := jsTrim line
  !(trimmed == "") && !(jsStartsWith trimmed "WEBVTT") && !(hasArrow trimmed)
    && !(testDigits trimmed)

/-- Translation of `parseVttToText` from src/lib/vtt-parser.ts: split into
lines, filter, strip markup tags and trim, drop now-empty lines, join the
survivors with one space. -/
def parseVttToText (vttContent : String) : String :=
  String.intercalate " "
    ((((splitLines vttContent).filter keepVttLine).map
        (fun line => jsTrim (stripTags line))).filter (fun s => !(s == "")))

/-- Modelled from the spec's wording of the VTT reduction: drop header
lines, cue-timing lines containing the arrow separator, and pure
sequence-number lines (no separate blank-line pre-filter; blank lines are
discarded at the "now-empty" stage). -/
def vttSpecKeep (line : String) : Bool :=
  let t := jsTrim line
  !(jsStartsWith t "WEBVTT") && !(hasArrow t) && !(testDigits t)

/-- Modelled from the spec: split into lines; drop the header, cue-timing
and sequence-number lines; strip angle-bracket markup from the rest;
discard lines that are then empty; join survivors with a single space. -/
def vttSpecReduction (v : String) : String :=
  String.intercalate " "
    ((((splitLines v).filter vttSpecKeep).map
        (fun line => jsTrim (stripTags line))).filter (fun s => !(s == "")))

/-! ### Decimal rendering of the collision counter (JS template `${counter}`) -/

/-- Fuelled decimal digits of a natural number, most significant first;
models the decimal rendering JS performs in the template literal
`${counter}`.  Fuel `n + 1` always suffices for the number `n`. -/
def decReprGo : Nat → Nat → List Char
  | 0, _ => []
  | fuel + 1, n =>
    if n < 10 then [Nat.digitChar n]
    else decReprGo fuel (n / 10) ++ [Nat.digitChar (n % 10)]

/-- Decimal string of a natural number (the JS `${counter}` rendering). -/
def decRepr (n : Nat) : String := ⟨decReprGo (n + 1) n⟩

/-- Value of a decimal digit string, used to prove `decRepr` injective. -/
def valDigits (l : List Char) : Nat := l.foldl (fun a c => 10 * a + (c.toNat - 48)) 0

/-! ### Data model (src/types/index.ts shapes, fields the commands use) -/

/-- A Slack file record (`SlackFile`); `transcription_status` flattens the
source's `transcription?.status`, `mode = "tombstone"` marks a deleted
file. -/
structure SlackFile where
  id : String := ""
  name : Option String := none
  filetype : Option String := none
  url_private : Option String := none
  url_private_download : Option String := none
  mode : Option String := none
  transcription_status : Option String := none
  vtt : Option String := none
deriving DecidableEq

/-- A Slack message (`SlackMessage`) with the fields the embedded commands
read.  The enrichment fields added by mutation in the source live on
`EnrichedMessage`. -/
structure SlackMessage where
  ts : String
  user : Option String := none
  text : String := ""
  reply_count : Option Nat := none
  files : List SlackFile := []
deriving DecidableEq

/-- A message together with the two fields the source attaches in place
(`msg.transcript`, `msg.thread_replies`); reply messages never get their
own enrichment, so replies are plain `SlackMessage`s. -/
structure EnrichedMessage where
  base : SlackMessage
  transcript : Option String := none
  thread_replies : Option (List SlackMessage) := none
deriving DecidableEq

/-- Unread-counters snapshot of one conversation (`SlackUnreadChannel`). -/
structure SlackUnreadChannel where
  id : String
  name : String := ""
  unread_count : Nat := 0
  mention_count : Nat := 0
  is_muted : Bool := false
  is_im : Bool := false
  is_mpim : Bool := false
  is_private : Bool := false
deriving DecidableEq

/-! ### Enrichment engine (files.ts `fetchTranscriptsForMessages`,
`fetchThreadRepliesForMessages`) -/

/-- Transcript produced for one file: only files with
`transcription?.status === 'complete'` and a truthy `vtt` reference are
fetched; a fetch failure or an empty parsed text yields nothing. -/
def fileTranscript (fetchContent : String → Except String String) (f : SlackFile) :
    Option String :=
  if f.transcription_status = some "complete" ∧ strVal f.vtt ≠ "" then
    match fetchContent (strVal f.vtt) with
    | .ok vtt =>
      let text := parseVttToText vtt
      if text ≠ "" then some text else none
    | .error _ => none
  else none

/-- Per-message transcript pass: collect the per-file transcripts, and only
when at least one exists store their `"\n\n"` join.  The source first
filters to messages owning a qualifying file, but messages outside that
filter are left unchanged by this function too, so the per-message form is
equivalent. -/
def attachTranscript (fetchContent : String → Except String String)
    (m : EnrichedMessage) : EnrichedMessage :=
  let transcripts := m.base.files.filterMap (fileTranscript fetchContent)
  if transcripts.isEmpty then m
  else { m with transcript := some (String.intercalate "\n\n" transcripts) }

/-- `fetchTranscriptsForMessages`: the sequential loop over the batch; a
failed fetch for one message never stops the others. -/
def fetchTranscriptsForMessages (fetchContent : String → Except String String)
    (messages : List EnrichedMessage) : List EnrichedMessage :=
  messages.map (attachTranscript fetchContent)

/-- Thread expansion for one message: when `(reply_count ?? 0) > 0`, fetch
the reply list for the message's `ts` (the `getReplies` argument closes
over the channel id); on success store all but the first returned entry
(the thread root); on failure log and leave the message unchanged. -/
def expandThread (getReplies : String → Except String (List SlackMessage))
    (m : EnrichedMessage) : EnrichedMessage :=
  if m.base.reply_count.getD 0 > 0 then
    match getReplies m.base.ts with
    | .ok replies => { m with thread_replies := some (replies.drop 1) }
    | .error _ => m
  else m

/-- `fetchThreadRepliesForMessages`: the sequential loop over the batch. -/
def fetchThreadRepliesForMessages (getReplies : String → Except String (List SlackMessage))
    (messages : List EnrichedMessage) : List EnrichedMessage :=
  messages.map (expandThread getReplies)

/-! ### Unread reconciliation (files.ts `conversations unread` action) -/

/-- `infoResponse.channel?.last_read || '0'`: a missing or empty watermark
falls back to `'0'`. -/
def resolveLastRead (lastRead : Option String) : String :=
  match lastRead with
  | some s => if s = "" then "0" else s
  | none => "0"

/-- Local strict re-filter of fetched history:
`(historyResponse.messages || []).filter(msg => msg.ts > lastRead)`. -/
def unreadShown (lastRead : String) (history : List SlackMessage) : List SlackMessage :=
  history.filter (fun msg => jsLt lastRead msg.ts)

/-- One step of `messages.reduce((max, msg) => msg.ts > max ? msg.ts : max, '0')`. -/
def tsMax (mx : String) (msg : SlackMessage) : String :=
  if jsLt mx msg.ts then msg.ts else mx

/-- `messages.reduce((max, msg) => msg.ts > max ? msg.ts : max, '0')`. -/
def latestTsOf (messages : List SlackMessage) : String :=
  messages.foldl tsMax "0"

/-- Unread messages shown for one conversation: fetch the watermark, fetch
history since it, strictly re-filter. -/
def channelShown (getLastRead : String → Option String)
    (getHistory : String → List SlackMessage) (cid : String) : List SlackMessage :=
  unreadShown (resolveLastRead (getLastRead cid)) (getHistory cid)

/-- JS `Map.prototype.set` on an insertion-ordered association list:
overwrite in place when the key exists, append otherwise. -/
def mapSet (m : List (String × String)) (k v : String) : List (String × String) :=
  if m.any (fun p => p.1 == k) then m.map (fun p => if p.1 == k then (k, v) else p)
  else m ++ [(k, v)]

/-- Body of the unread loop for one conversation: when at least one
message is shown, record that conversation's own maximum shown `ts` under
its id. -/
def trackChannel (getLastRead : String → Option String)
    (getHistory : String → List SlackMessage)
    (acc : List (String × String)) (ch : SlackUnreadChannel) : List (String × String) :=
  let messages := channelShown getLastRead getHistory ch.id
  if messages.isEmpty then acc
  else mapSet acc ch.id (latestTsOf messages)

/-- The `latestTimestamps` map built by the unread loop. -/
def latestTimestamps (getLastRead : String → Option String)
    (getHistory : String → List SlackMessage)
    (channels : List SlackUnreadChannel) : List (String × String) :=
  channels.foldl (trackChannel getLastRead getHistory) []

/-- The contribution of one conversation to `latestTimestamps`, used to
characterize the map when conversation ids are distinct. -/
def unreadEntry (getLastRead : String → Option String)
    (getHistory : String → List SlackMessage)
    (ch : SlackUnreadChannel) : Option (String × String) :=
  let messages := channelShown getLastRead getHistory ch.id
  if messages.isEmpty then none else some (ch.id, latestTsOf messages)

/-- The mark-read loop over the tracked map: every entry is attempted, a
failure for one conversation never prevents marking the others. -/
def markAll (markConversation : String → String → Bool)
    (entries : List (String × String)) : List ((String × String) × Bool) :=
  entries.map (fun e => (e, markConversation e.1 e.2))

/-! ### Batch file materializer (files.ts `files download-all` action) -/

/-- `file.url_private_download || file.url_private`, empty when neither is
usable (the loop then skips the file). -/
def downloadUrl (f : SlackFile) : String :=
  if strVal f.url_private_download ≠ "" then strVal f.url_private_download
  else strVal f.url_private

/-- `file.name || `${file.id}.${file.filetype || 'bin'}``. -/
def fileNameOf (f : SlackFile) : String :=
  if strVal f.name ≠ "" then strVal f.name
  else f.id ++ "." ++ (if strVal f.filetype ≠ "" then strVal f.filetype else "bin")

/-- `path.join(dir, name)` (normalization irrelevant to the claims). -/
def joinPath (dir name : String) : String := dir ++ "/" ++ name

/-- `fileName.slice(0, fileName.lastIndexOf('.'))` when the name contains a
dot (expressed through `split('.')`), else the whole name. -/
def vNameWithoutExt (fileName : String) : String :=
  if fileName.data.contains '.' then joinDot ((jsSplit '.' fileName).dropLast)
  else fileName

/-- `'.' + fileName.split('.').pop()` when the name contains a dot, else
the empty string. -/
def vExt (fileName : String) : String :=
  if fileName.data.contains '.' then ⟨'.' :: ((jsSplit '.' fileName).getLastD "").data⟩
  else ""

/-- Candidate output path number `k` for a file name: `k = 0` is the plain
target path, `k ≥ 1` inserts the numeric suffix `_k` before the
extension. -/
def candidate (dir fileName : String) (k : Nat) : String :=
  if k = 0 then joinPath dir fileName
  else joinPath dir (vNameWithoutExt fileName ++ "_" ++ decRepr k ++ vExt fileName)

/-- The `while (existsSync(finalPath))` loop: starting from candidate
`counter`, return the first candidate not present in the file system;
existence is checked freshly against the current path set.  The fuel
`fsPaths.length + 1` always exceeds the number of occupied candidates, so
the fallback arm is never the answer on the source's reachable states. -/
def resolveLoop (fsPaths : List String) (dir fileName : String) : Nat → Nat → String
  | 0, counter => candidate dir fileName counter
  | fuel + 1, counter =>
    if candidate dir fileName counter ∈ fsPaths then
      resolveLoop fsPaths dir fileName fuel (counter + 1)
    else candidate dir fileName counter

/-- Collision-safe output path for one file against the current set of
existing paths. -/
def resolvePath (fsPaths : List String) (dir fileName : String) : String :=
  resolveLoop fsPaths dir fileName (fsPaths.length + 1) 0

/-- Outcome bucket of one file in the download-all loop. -/
inductive Outcome
  | downloaded (path : String)
  | failed
  | skipped
deriving DecidableEq

/-- Whether an outcome is a successful download. -/
def Outcome.isDownloaded : Outcome → Bool
  | .downloaded _ => true
  | _ => false

/-- Whether an outcome is a failed download. -/
def Outcome.isFailed : Outcome → Bool
  | .failed => true
  | _ => false

/-- Whether an outcome is a skip. -/
def Outcome.isSkipped : Outcome → Bool
  | .skipped => true
  | _ => false

/-- Mutable state of the download-all loop: the set of existing paths
(initially the output directory's contents) and the three counters. -/
structure DlState where
  fsPaths : List String
  downloadedCount : Nat := 0
  failedCount : Nat := 0
  skippedCount : Nat := 0
deriving DecidableEq

/-- One iteration of the download-all loop, in source order: skip when no
download URL is usable, skip tombstone files, otherwise resolve a fresh
output path and attempt the download; a success writes the file (claiming
the path), a failure only bumps the failure counter. -/
def dlStep (fetchOk : String → Bool) (dir : String) (st : DlState) (f : SlackFile) :
    DlState × Outcome :=
  let url := downloadUrl f
  if url = "" then ({ st with skippedCount := st.skippedCount + 1 }, .skipped)
  else if f.mode = some "tombstone" then
    ({ st with skippedCount := st.skippedCount + 1 }, .skipped)
  else
    let finalPath := resolvePath st.fsPaths dir (fileNameOf f)
    if fetchOk url then
      ({ st with
          fsPaths := finalPath :: st.fsPaths
          downloadedCount := st.downloadedCount + 1 }, .downloaded finalPath)
    else ({ st with failedCount := st.failedCount + 1 }, .failed)

/-- The sequential download-all loop over the listed files, collecting the
per-file outcomes; one failed item never aborts the remainder. -/
def dlRun (fetchOk : String → Bool) (dir : String) :
    DlState → List SlackFile → DlState × List Outcome
  | st, [] => (st, [])
  | st, f :: rest =>
    let so := dlStep fetchOk dir st f
    let rec' := dlRun fetchOk dir so.1 rest
    (rec'.1, so.2 :: rec'.2)

/-- `files download-all` over a listing, starting from the directory's
initial contents and zeroed counters. -/
def downloadAll (fetchOk : String → Bool) (fs0 : List String) (dir : String)
    (files : List SlackFile) : DlState × List Outcome :=
  dlRun fetchOk dir { fsPaths := fs0 } files

/-! ### Messages command (send / schedule) -/

/-- Remote calls the `messages` command can issue after validation. -/
inductive RemoteCall
  | openConversation (userId : String)
  | postMessage (channelId text : String) (threadTs : Option String)
  | scheduleMessage (channelId text : String) (postAt : Int) (threadTs : Option String)
deriving DecidableEq

/-- `if (options.recipientId.startsWith('U'))`: open a direct-message
conversation first and use the id it returns, otherwise use the recipient
id as the channel id directly.  `openConv` models
`client.openConversation(...).channel.id`. -/
def resolveRecipientChannel (openConv : String → String) (recipientId : String) :
    List RemoteCall × String :=
  if jsStartsWith recipientId "U" then
    ([RemoteCall.openConversation recipientId], openConv recipientId)
  else ([], recipientId)

/-- The `messages send` action: resolve the recipient, then post. -/
def sendAction (openConv : String → String) (recipientId message : String)
    (threadTs : Option String) : List RemoteCall :=
  let rc := resolveRecipientChannel openConv recipientId
  rc.1 ++ [RemoteCall.postMessage rc.2 message threadTs]

/-- The `messages schedule` action on the resolved post-at time: the two
local bound checks run before any remote call; only when both pass does
the action resolve the recipient and issue the schedule call.  The boolean
records whether local validation passed. -/
def scheduleAction (openConv : String → String) (now : Int) (recipientId message : String)
    (postAt : Int) (threadTs : Option String) : List RemoteCall × Bool :=
  if postAt ≤ now then ([], false)
  else if postAt > now + 120 * 24 * 60 * 60 then ([], false)
  else
    let rc := resolveRecipientChannel openConv recipientId
    (rc.1 ++ [RemoteCall.scheduleMessage rc.2 message postAt threadTs], true)

/-! ### Per-command terminal behavior (exit codes and headline output) -/

/-- Printed lines and exit code of one command invocation. -/
structure CmdResult where
  output : List String
  exitCode : Nat
deriving DecidableEq

/-- `messages send`: catch prints and calls `process.exit(1)`. -/
def messagesSendRun (r : Except String String) : CmdResult :=
  match r with
  | .ok ts => ⟨["Message sent successfully!", "Message timestamp: " ++ ts], 0⟩
  | .error m => ⟨["Failed to send message", "Error: " ++ m], 1⟩

/-- `messages schedule`: catch (validation or remote failure) prints and
calls `process.exit(1)`. -/
def messagesScheduleRun (r : Except String String) : CmdResult :=
  match r with
  | .ok sid => ⟨["Message scheduled successfully!", "Scheduled message ID: " ++ sid], 0⟩
  | .error m => ⟨["Failed to schedule message", "Error: " ++ m], 1⟩

/-- `messages scheduled list`: catch prints and calls `process.exit(1)`. -/
def scheduledListRun (r : Except String Unit) : CmdResult :=
  match r with
  | .ok _ => ⟨["(scheduled messages listing)"], 0⟩
  | .error m => ⟨["Failed to fetch scheduled messages", "Error: " ++ m], 1⟩

/-- `messages scheduled delete`: catch prints and calls `process.exit(1)`. -/
def scheduledDeleteRun (r : Except String Unit) : CmdResult :=
  match r with
  | .ok _ => ⟨["Scheduled message deleted successfully!"], 0⟩
  | .error m => ⟨["Failed to delete scheduled message", "Error: " ++ m], 1⟩

/-- `files read`: catch prints and calls `process.exit(1)`. -/
def filesReadRun (r : Except String String) : CmdResult :=
  match r with
  | .ok content => ⟨["File content retrieved!", content], 0⟩
  | .error m => ⟨["Failed to fetch file", "Error: " ++ m], 1⟩

/-- `files download`: catch prints and calls `process.exit(1)`. -/
def filesDownloadRun (r : Except String Unit) : CmdResult :=
  match r with
  | .ok _ => ⟨["File downloaded successfully!"], 0⟩
  | .error m => ⟨["Failed to download file", "Error: " ++ m], 1⟩

/-- `files list`: catch prints and calls `process.exit(1)`. -/
def filesListRun (r : Except String Unit) : CmdResult :=
  match r with
  | .ok _ => ⟨["(file listing)"], 0⟩
  | .error m => ⟨["Failed to fetch files", "Error: " ++ m], 1⟩

/-- `files download-all`: a failure of the overall listing fetch prints and
calls `process.exit(1)`; per-item failures are aggregate-reported with
exit 0 (see `downloadAll`). -/
def filesDownloadAllRun (r : Except String Unit) : CmdResult :=
  match r with
  | .ok _ => ⟨["(batch download summary)"], 0⟩
  | .error m => ⟨["Failed to download files", "Error: " ++ m], 1⟩

/-- `conversations list`: catch prints and calls `process.exit(1)`. -/
def conversationsListRun (r : Except String Unit) : CmdResult :=
  match r with
  | .ok _ => ⟨["(conversation listing)"], 0⟩
  | .error m => ⟨["Failed to fetch conversations", "Error: " ++ m], 1⟩

/-- `conversations read`: catch prints and calls `process.exit(1)`. -/
def conversationsReadRun (r : Except String Unit) : CmdResult :=
  match r with
  | .ok _ => ⟨["(conversation history)"], 0⟩
  | .error m => ⟨["Failed to fetch messages", "Error: " ++ m], 1⟩

/-- `conversations unread`: catch prints and calls `process.exit(1)`. -/
def conversationsUnreadRun (r : Except String Unit) : CmdResult :=
  match r with
  | .ok _ => ⟨["(unread report)"], 0⟩
  | .error m => ⟨["Failed to fetch unread messages", "Error: " ++ m], 1⟩

/-- `conversations mark-read`: catch prints and calls `process.exit(1)`. -/
def conversationsMarkReadRun (r : Except String Unit) : CmdResult :=
  match r with
  | .ok _ => ⟨["Conversation marked as read"], 0⟩
  | .error m => ⟨["Failed to mark conversation as read", "Error: " ++ m], 1⟩

/-- `drafts list`: the catch in src/commands/drafts.ts stops the spinner
and prints the error but never calls `process.exit`, so the process still
terminates with exit code 0. -/
def draftsListRun (r : Except String Unit) : CmdResult :=
  match r with
  | .ok _ => ⟨["(draft listing)"], 0⟩
  | .error m => ⟨["Error: " ++ m], 0⟩

/-- `drafts create`: the catch prints the error but never calls
`process.exit`, so the process still terminates with exit code 0. -/
def draftsCreateRun (r : Except String String) : CmdResult :=
  match r with
  | .ok did => ⟨["Draft created successfully", "Draft ID: " ++ did], 0⟩
  | .error m => ⟨["Error: " ++ m], 0⟩

/-- `drafts delete`: the catch prints two error lines but never calls
`process.exit`, so the process still terminates with exit code 0. -/
def draftsDeleteRun (r : Except String Unit) : CmdResult :=
  match r with
  | .ok _ => ⟨["Draft deleted successfully"], 0⟩
  | .error m => ⟨["Failed to delete draft", "Error: " ++ m], 0⟩

/-! ## General lemmas about the embedded primitives -/

/-- Two strings with equal character data are equal. -/
theorem string_data_inj {a b : String} (h : a.data = b.data) : a = b := by
  cases a; cases b; exact congrArg String.mk h

/-- Characters with equal code points are equal. -/
theorem char_toNat_inj {a b : Char} (h : a.toNat = b.toNat) : a = b :=
  Char.ext (UInt32.ext h)

/-- The JS string order is irreflexive. -/
theorem jsLtChars_irrefl : ∀ l : List Char, jsLtChars l l = false
  | [] => rfl
  | a :: as => by simp [jsLtChars, jsLtChars_irrefl as]

/-- The JS string order is transitive. -/
theorem jsLtChars_trans (a : List Char) : ∀ b c : List Char,
    jsLtChars a b = true → jsLtChars b c = true → jsLtChars a c = true := by
  induction a with
  | nil =>
    intro b c h1 h2
    cases b with
    | nil => simp [jsLtChars] at h1
    | cons y ys =>
      cases c with
      | nil => simp [jsLtChars] at h2
      | cons z zs => rfl
  | cons x xs ih =>
    intro b c h1 h2
    cases b with
    | nil => simp [jsLtChars] at h1
    | cons y ys =>
      cases c with
      | nil => simp [jsLtChars] at h2
      | cons z zs =>
        simp only [jsLtChars] at h1 h2 ⊢
        by_cases hxy : x.toNat < y.toNat <;> by_cases hyx : y.toNat < x.toNat <;>
          by_cases hyz : y.toNat < z.toNat <;> by_cases hzy : z.toNat < y.toNat <;>
          simp [hxy, hyx, hyz, hzy] at h1 h2 ⊢ <;>
          first
            | omega
            | exact Or.inl (by omega)
            | exact Or.inr ⟨by omega, ih ys zs h1 h2⟩

/-- Two strings neither of which is JS-below the other are equal. -/
theorem jsLtChars_antisymm (a : List Char) : ∀ b : List Char,
    jsLtChars a b = false → jsLtChars b a = false → a = b := by
  induction a with
  | nil =>
    intro b h1 _
    cases b with
    | nil => rfl
    | cons y ys => simp [jsLtChars] at h1
  | cons x xs ih =>
    intro b h1 h2
    cases b with
    | nil => simp [jsLtChars] at h2
    | cons y ys =>
      simp only [jsLtChars] at h1 h2
      by_cases hxy : x.toNat < y.toNat <;> by_cases hyx : y.toNat < x.toNat <;>
        simp [hxy, hyx] at h1 h2 <;>
        first
          | omega
          | rw [char_toNat_inj (show x.toNat = y.toNat by omega), ih ys h1 h2]

/-- String-level irreflexivity. -/
theorem jsLt_irrefl (a : String) : jsLt a a = false := jsLtChars_irrefl a.data

/-- String-level transitivity. -/
theorem jsLt_trans {a b c : String} (h1 : jsLt a b = true) (h2 : jsLt b c = true) :
    jsLt a c = true := jsLtChars_trans a.data b.data c.data h1 h2

/-- String-level antisymmetry. -/
theorem jsLt_antisymm {a b : String} (h1 : jsLt a b = false) (h2 : jsLt b a = false) :
    a = b := string_data_inj (jsLtChars_antisymm a.data b.data h1 h2)

/-- From `z ≤ l` and `l < t` conclude `z < t` in the JS order. -/
theorem jsLt_of_le_of_lt {z l t : String} (h1 : jsLt l z = false) (h2 : jsLt l t = true) :
    jsLt z t = true := by
  cases hzl : jsLt z l with
  | true => exact jsLt_trans hzl h2
  | false => exact jsLt_antisymm h1 hzl ▸ h2

/-! ## Lemmas about the running maximum of shown timestamps -/

/-- Folding `tsMax` never drops below an earlier lower bound. -/
theorem foldl_tsMax_preserve {y : String} : ∀ (l : List SlackMessage) (acc : String),
    jsLt acc y = false → jsLt (l.foldl tsMax acc) y = false := by
  intro l
  induction l with
  | nil => intro acc h; exact h
  | cons m rest ih =>
    intro acc h
    simp only [List.foldl_cons]
    apply ih
    unfold tsMax
    by_cases hc : jsLt acc m.ts = true
    · rw [if_pos hc]
      cases hy : jsLt m.ts y with
      | false => rfl
      | true => rw [jsLt_trans hc hy] at h; exact absurd h (by simp)
    · rw [if_neg hc]; exact h

/-- The folded maximum is an upper bound of every element. -/
theorem foldl_tsMax_ub : ∀ (l : List SlackMessage) (acc : String) (m : SlackMessage),
    m ∈ l → jsLt (l.foldl tsMax acc) m.ts = false := by
  intro l
  induction l with
  | nil => intro _ m h; simp at h
  | cons m0 rest ih =>
    intro acc m hm
    simp only [List.foldl_cons]
    rcases List.mem_cons.mp hm with h | h
    · subst h
      apply foldl_tsMax_preserve
      unfold tsMax
      by_cases hc : jsLt acc m.ts = true
      · rw [if_pos hc]; exact jsLt_irrefl m.ts
      · rw [if_neg hc]; exact Bool.eq_false_iff.mpr hc
    · exact ih _ m h

/-- The folded maximum is the initial value or one of the elements. -/
theorem foldl_tsMax_mem : ∀ (l : List SlackMessage) (acc : String),
    l.foldl tsMax acc = acc ∨ (l.foldl tsMax acc) ∈ l.map SlackMessage.ts := by
  intro l
  induction l with
  | nil => intro acc; left; rfl
  | cons m rest ih =>
    intro acc
    simp only [List.foldl_cons, List.map_cons]
    rcases ih (tsMax acc m) with h | h
    · rw [h]
      unfold tsMax
      by_cases hc : jsLt acc m.ts = true
      · rw [if_pos hc]; right; exact List.mem_cons_self _ _
      · rw [if_neg hc]; left; rfl
    · right; exact List.mem_cons_of_mem _ h

/-! ## Claim C2 -/

/-- C2: in `conversations unread --show`, for a conversation whose
`last_read` watermark is `T`, the messages shown are exactly the fetched
history messages whose `ts` strictly exceeds `T` in the JS string order;
no message with `ts ≤ T` is ever shown even if the remote fetch returned
it. -/
theorem c2_strict_after_filter (T : String) (history : List SlackMessage) (m : SlackMessage) :
    m ∈ unreadShown T history ↔ m ∈ history ∧ jsLt T m.ts = true := by
  simp [unreadShown, List.mem_filter]

/-! ## Claim C5 -/

/-- C5: `messages schedule` fails local validation, issuing no remote
call, exactly when the resolved post-at time is at or before `now` or
beyond `now + 120` days; a post-at strictly inside the window passes
validation and proceeds to the remote schedule call. -/
theorem c5_schedule_bounds (openConv : String → String) (now postAt : Int)
    (recipientId message : String) (threadTs : Option String) :
    ((postAt ≤ now ∨ now + 120 * 24 * 60 * 60 < postAt) →
      scheduleAction openConv now recipientId message postAt threadTs = ([], false))
    ∧ (now < postAt → postAt ≤ now + 120 * 24 * 60 * 60 →
      (scheduleAction openConv now recipientId message postAt threadTs).2 = true
      ∧ RemoteCall.scheduleMessage (resolveRecipientChannel openConv recipientId).2
          message postAt threadTs
        ∈ (scheduleAction openConv now recipientId message postAt threadTs).1) := by
  constructor
  · intro h
    unfold scheduleAction
    rcases h with h | h
    · rw [if_pos h]
    · rw [if_neg (by omega), if_pos (by omega)]
  · intro h1 h2
    unfold scheduleAction
    rw [if_neg (by omega), if_neg (by omega)]
    exact ⟨rfl, by simp⟩

/-- Witness for C5 at concrete times: scheduling at `now` fails, at
`now + 120 days + 1 second` fails, and at `now + 1 hour` passes validation
and reaches the schedule call. -/
theorem c5_schedule_bounds_witness :
    scheduleAction (fun _ => "D1") 1000 "C9" "hi" 1000 none = ([], false)
    ∧ scheduleAction (fun _ => "D1") 1000 "C9" "hi" (1000 + 120 * 24 * 60 * 60 + 1) none
        = ([], false)
    ∧ ((scheduleAction (fun _ => "D1") 1000 "C9" "hi" 4600 none).2 = true
      ∧ RemoteCall.scheduleMessage (resolveRecipientChannel (fun _ => "D1") "C9").2
          "hi" 4600 none
        ∈ (scheduleAction (fun _ => "D1") 1000 "C9" "hi" 4600 none).1) :=
  ⟨(c5_schedule_bounds (fun _ => "D1") 1000 1000 "C9" "hi" none).1 (Or.inl (by norm_num)),
   (c5_schedule_bounds (fun _ => "D1") 1000 (1000 + 120 * 24 * 60 * 60 + 1) "C9" "hi" none).1
     (Or.inr (by norm_num)),
   (c5_schedule_bounds (fun _ => "D1") 1000 4600 "C9" "hi" none).2
     (by norm_num) (by norm_num)⟩

/-! ## Claim C10 -/

/-- C10: `messages send` and `messages schedule` treat the recipient id as
a user exactly when it begins with `U`: then a direct-message conversation
is opened first and the post or schedule call targets the id that call
returns; any other recipient id is passed directly as the channel id. -/
theorem c10_recipient_user_routing (openConv : String → String)
    (recipientId message : String) (threadTs : Option String) (now postAt : Int)
    (h1 : now < postAt) (h2 : postAt ≤ now + 120 * 24 * 60 * 60) :
    sendAction openConv recipientId message threadTs
      = (if jsStartsWith recipientId "U" then
          [RemoteCall.openConversation recipientId,
            RemoteCall.postMessage (openConv recipientId) message threadTs]
        else [RemoteCall.postMessage recipientId message threadTs])
    ∧ (scheduleAction openConv now recipientId message postAt threadTs).1
      = (if jsStartsWith recipientId "U" then
          [RemoteCall.openConversation recipientId,
            RemoteCall.scheduleMessage (openConv recipientId) message postAt threadTs]
        else [RemoteCall.scheduleMessage recipientId message postAt threadTs]) := by
  constructor
  · by_cases h : jsStartsWith recipientId "U" = true <;>
      simp [sendAction, resolveRecipientChannel, h]
  · unfold scheduleAction
    rw [if_neg (by omega), if_neg (by omega)]
    by_cases h : jsStartsWith recipientId "U" = true <;>
      simp [resolveRecipientChannel, h]

/-- Witness for C10: a `U`-prefixed recipient opens a DM and posts to the
returned conversation; a non-`U` recipient is posted to directly. -/
theorem c10_recipient_user_routing_witness :
    sendAction (fun _ => "D1") "U42" "hi" none
      = [RemoteCall.openConversation "U42", RemoteCall.postMessage "D1" "hi" none]
    ∧ sendAction (fun _ => "D1") "C42" "hi" none
      = [RemoteCall.postMessage "C42" "hi" none]
    ∧ (scheduleAction (fun _ => "D1") 1000 "U42" "hi" 4600 none).1
      = [RemoteCall.openConversation "U42", RemoteCall.scheduleMessage "D1" "hi" 4600 none] := by
  refine ⟨?_, ?_, ?_⟩
  · rw [(c10_recipient_user_routing (fun _ => "D1") "U42" "hi" none 1000 4600
      (by norm_num) (by norm_num)).1]
    decide
  · rw [(c10_recipient_user_routing (fun _ => "D1") "C42" "hi" none 1000 4600
      (by norm_num) (by norm_num)).1]
    decide
  · rw [(c10_recipient_user_routing (fun _ => "D1") "U42" "hi" none 1000 4600
      (by norm_num) (by norm_num)).2]
    decide

/-! ## Claim C9 (corrected) -/

/-- Counterexample to C9 as stated: a fatal remote failure of
`drafts delete` prints its error message but the process exits 0, not 1,
because the catch in src/commands/drafts.ts never calls
`process.exit(1)`. -/
theorem c9_exit_code_counterexample :
    (draftsDeleteRun (Except.error "network failure")).exitCode = 0
    ∧ (draftsDeleteRun (Except.error "network failure")).exitCode ≠ 1 := by
  decide

/-- C9 amended: every command prints a clear error message on failure, and
every command except the three drafts commands terminates with exit code 1
on a validation or fatal remote error and 0 on success; the drafts
commands (list, create, delete) print the error but exit 0 either way. -/
theorem c9_exit_codes_amended (m v : String) :
    (messagesSendRun (Except.error m)).exitCode = 1
    ∧ (messagesSendRun (Except.error m)).output ≠ []
    ∧ (messagesSendRun (Except.ok v)).exitCode = 0
    ∧ (messagesScheduleRun (Except.error m)).exitCode = 1
    ∧ (messagesScheduleRun (Except.error m)).output ≠ []
    ∧ (messagesScheduleRun (Except.ok v)).exitCode = 0
    ∧ (scheduledListRun (Except.error m)).exitCode = 1
    ∧ (scheduledListRun (Except.error m)).output ≠ []
    ∧ (scheduledListRun (Except.ok ())).exitCode = 0
    ∧ (scheduledDeleteRun (Except.error m)).exitCode = 1
    ∧ (scheduledDeleteRun (Except.error m)).output ≠ []
    ∧ (scheduledDeleteRun (Except.ok ())).exitCode = 0
    ∧ (filesReadRun (Except.error m)).exitCode = 1
    ∧ (filesReadRun (Except.error m)).output ≠ []
    ∧ (filesReadRun (Except.ok v)).exitCode = 0
    ∧ (filesDownloadRun (Except.error m)).exitCode = 1
    ∧ (filesDownloadRun (Except.error m)).output ≠ []
    ∧ (filesDownloadRun (Except.ok ())).exitCode = 0
    ∧ (filesListRun (Except.error m)).exitCode = 1
    ∧ (filesListRun (Except.error m)).output ≠ []
    ∧ (filesListRun (Except.ok ())).exitCode = 0
    ∧ (filesDownloadAllRun (Except.error m)).exitCode = 1
    ∧ (filesDownloadAllRun (Except.error m)).output ≠ []
    ∧ (filesDownloadAllRun (Except.ok ())).exitCode = 0
    ∧ (conversationsListRun (Except.error m)).exitCode = 1
    ∧ (conversationsListRun (Except.error m)).output ≠ []
    ∧ (conversationsListRun (Except.ok ())).exitCode = 0
    ∧ (conversationsReadRun (Except.error m)).exitCode = 1
    ∧ (conversationsReadRun (Except.error m)).output ≠ []
    ∧ (conversationsReadRun (Except.ok ())).exitCode = 0
    ∧ (conversationsUnreadRun (Except.error m)).exitCode = 1
    ∧ (conversationsUnreadRun (Except.error m)).output ≠ []
    ∧ (conversationsUnreadRun (Except.ok ())).exitCode = 0
    ∧ (conversationsMarkReadRun (Except.error m)).exitCode = 1
    ∧ (conversationsMarkReadRun (Except.error m)).output ≠ []
    ∧ (conversationsMarkReadRun (Except.ok ())).exitCode = 0
    ∧ (draftsListRun (Except.error m)).exitCode = 0
    ∧ (draftsListRun (Except.error m)).output ≠ []
    ∧ (draftsListRun (Except.ok ())).exitCode = 0
    ∧ (draftsCreateRun (Except.error m)).exitCode = 0
    ∧ (draftsCreateRun (Except.error m)).output ≠ []
    ∧ (draftsCreateRun (Except.ok v)).exitCode = 0
    ∧ (draftsDeleteRun (Except.error m)).exitCode = 0
    ∧ (draftsDeleteRun (Except.error m)).output ≠ []
    ∧ (draftsDeleteRun (Except.ok ())).exitCode = 0 := by
  simp [messagesSendRun, messagesScheduleRun, scheduledListRun, scheduledDeleteRun,
    filesReadRun, filesDownloadRun, filesListRun, filesDownloadAllRun,
    conversationsListRun, conversationsReadRun, conversationsUnreadRun,
    conversationsMarkReadRun, draftsListRun, draftsCreateRun, draftsDeleteRun]

/-! ## Lemmas about the enrichment loops -/

/-- A message whose reply fetch fails is left unchanged by thread
expansion. -/
theorem expandThread_of_error {getReplies : String → Except String (List SlackMessage)}
    {m : EnrichedMessage} {e : String}
    (h : getReplies m.base.ts = Except.error e) : expandThread getReplies m = m := by
  by_cases hrc : m.base.reply_count.getD 0 > 0
  · simp [expandThread, hrc, h]
  · simp [expandThread, hrc]

/-- A message with a positive reply count and a successful reply fetch
stores all but the first returned entry. -/
theorem expandThread_of_ok {getReplies : String → Except String (List SlackMessage)}
    {m : EnrichedMessage} {rs : List SlackMessage}
    (hrc : m.base.reply_count.getD 0 > 0) (h : getReplies m.base.ts = Except.ok rs) :
    expandThread getReplies m = { m with thread_replies := some (rs.drop 1) } := by
  simp [expandThread, hrc, h]

/-- A message none of whose file fetches succeeds is left unchanged by the
transcript pass. -/
theorem attachTranscript_of_error {fetchContent : String → Except String String}
    {m : EnrichedMessage}
    (h : ∀ fl ∈ m.base.files, ∀ s, fetchContent (strVal fl.vtt) ≠ Except.ok s) :
    attachTranscript fetchContent m = m := by
  have hnil : m.base.files.filterMap (fileTranscript fetchContent) = [] := by
    rw [List.filterMap_eq_nil_iff]
    intro fl hfl
    unfold fileTranscript
    by_cases hq : fl.transcription_status = some "complete" ∧ strVal fl.vtt ≠ ""
    · rw [if_pos hq]
      cases hfc : fetchContent (strVal fl.vtt) with
      | ok s => exact absurd hfc (h fl hfl s)
      | error e => rfl
    · rw [if_neg hq]
  simp [attachTranscript, hnil]

/-! ## Lemmas about the download-all loop -/

/-- The loop emits one outcome per listed file: no item aborts it. -/
theorem dlRun_length (fetchOk : String → Bool) (dir : String) :
    ∀ (files : List SlackFile) (st : DlState),
    ((dlRun fetchOk dir st files).2).length = files.length := by
  intro files
  induction files with
  | nil => intro st; rfl
  | cons f rest ih => intro st; simp [dlRun, ih]

/-- The outcome of the `i`-th file is produced by `dlStep` on that file at
some intermediate state: the loop reaches every item. -/
theorem dlRun_outcome_exists (fetchOk : String → Bool) (dir : String) :
    ∀ (files : List SlackFile) (st : DlState) (i : Nat) (f : SlackFile),
    files[i]? = some f →
    ∃ st', ((dlRun fetchOk dir st files).2)[i]? = some ((dlStep fetchOk dir st' f).2) := by
  intro files
  induction files with
  | nil => intro st i f h; simp at h
  | cons g rest ih =>
    intro st i f h
    cases i with
    | zero =>
      simp only [List.getElem?_cons_zero, Option.some.injEq] at h
      subst h
      exact ⟨st, by simp [dlRun]⟩
    | succ n =>
      simp only [List.getElem?_cons_succ] at h
      obtain ⟨st', hst⟩ := ih (dlStep fetchOk dir st g).1 n f h
      exact ⟨st', by simpa [dlRun] using hst⟩

/-- A tombstone file is skipped regardless of the loop state. -/
theorem dlStep_tombstone_skipped {fetchOk : String → Bool} {dir : String} {st : DlState}
    {f : SlackFile} (h : f.mode = some "tombstone") :
    (dlStep fetchOk dir st f).2 = Outcome.skipped := by
  by_cases hu : downloadUrl f = ""
  · simp [dlStep, hu]
  · simp [dlStep, hu, h]

/-- A file with a usable URL, not a tombstone, whose fetch fails is
counted as failed regardless of the loop state. -/
theorem dlStep_failed_outcome {fetchOk : String → Bool} {dir : String} {st : DlState}
    {f : SlackFile} (hu : downloadUrl f ≠ "") (hm : f.mode ≠ some "tombstone")
    (hf : fetchOk (downloadUrl f) = false) :
    (dlStep fetchOk dir st f).2 = Outcome.failed := by
  simp [dlStep, hu, hm, hf]

/-- Each step bumps exactly the counter matching its outcome. -/
theorem dlStep_counters (fetchOk : String → Bool) (dir : String) (st : DlState)
    (f : SlackFile) :
    (dlStep fetchOk dir st f).1.downloadedCount
      = st.downloadedCount
        + (if Outcome.isDownloaded (dlStep fetchOk dir st f).2 then 1 else 0)
    ∧ (dlStep fetchOk dir st f).1.failedCount
      = st.failedCount + (if Outcome.isFailed (dlStep fetchOk dir st f).2 then 1 else 0)
    ∧ (dlStep fetchOk dir st f).1.skippedCount
      = st.skippedCount + (if Outcome.isSkipped (dlStep fetchOk dir st f).2 then 1 else 0) := by
  by_cases hu : downloadUrl f = "" <;> by_cases hm : f.mode = some "tombstone" <;>
    by_cases hf : fetchOk (downloadUrl f) = true <;>
    simp [dlStep, hu, hm, hf, Outcome.isDownloaded, Outcome.isFailed, Outcome.isSkipped]

/-- The final counters are the initial counters plus the per-bucket
outcome counts. -/
theorem dlRun_counters (fetchOk : String → Bool) (dir : String) :
    ∀ (files : List SlackFile) (st : DlState),
    (dlRun fetchOk dir st files).1.downloadedCount
      = st.downloadedCount
        + ((dlRun fetchOk dir st files).2).countP Outcome.isDownloaded
    ∧ (dlRun fetchOk dir st files).1.failedCount
      = st.failedCount + ((dlRun fetchOk dir st files).2).countP Outcome.isFailed
    ∧ (dlRun fetchOk dir st files).1.skippedCount
      = st.skippedCount + ((dlRun fetchOk dir st files).2).countP Outcome.isSkipped := by
  intro files
  induction files with
  | nil => intro st; simp [dlRun]
  | cons f rest ih =>
    intro st
    obtain ⟨hs1, hs2, hs3⟩ := dlStep_counters fetchOk dir st f
    obtain ⟨hr1, hr2, hr3⟩ := ih (dlStep fetchOk dir st f).1
    refine ⟨?_, ?_, ?_⟩ <;> simp only [dlRun, List.countP_cons] <;> omega

/-- Every outcome lands in exactly one of the three buckets. -/
theorem countP_outcomes_sum : ∀ os : List Outcome,
    os.countP Outcome.isDownloaded + os.countP Outcome.isFailed
      + os.countP Outcome.isSkipped = os.length := by
  intro os
  induction os with
  | nil => rfl
  | cons o rest ih =>
    cases o <;>
      simp [List.countP_cons, Outcome.isDownloaded, Outcome.isFailed, Outcome.isSkipped] <;>
      omega

/-! ## Claim C8 -/

/-- C8: thread expansion, for every message in the batch whose reply count
exceeds 0 and whose reply fetch succeeds, stores exactly the returned
reply list minus its first entry (the thread root), in the returned
order, as that message's thread replies. -/
theorem c8_thread_expansion (getReplies : String → Except String (List SlackMessage))
    (msgs : List EnrichedMessage) (i : Nat) (m : EnrichedMessage) (rs : List SlackMessage)
    (hm : msgs[i]? = some m) (hrc : m.base.reply_count.getD 0 > 0)
    (hok : getReplies m.base.ts = Except.ok rs) :
    (fetchThreadRepliesForMessages getReplies msgs)[i]?
      = some { m with thread_replies := some (rs.drop 1) } := by
  unfold fetchThreadRepliesForMessages
  rw [List.getElem?_map, hm, Option.map_some']
  rw [expandThread_of_ok hrc hok]

/-- Witness for C8 on the spec's scenario: three messages, the first a
thread parent with two replies after the root; expansion stores the two
non-root entries in order. -/
theorem c8_thread_expansion_witness :
    (fetchThreadRepliesForMessages
      (fun ts =>
        if ts = "100.000001" then
          Except.ok [{ ts := "100.000001" }, { ts := "150.000001" }, { ts := "160.000001" }]
        else Except.error "unused")
      [{ base := { ts := "100.000001", reply_count := some 2 } },
        { base := { ts := "200.000001" } },
        { base := { ts := "300.000001" } }])[0]?
      = some { base := { ts := "100.000001", reply_count := some 2 },
               thread_replies := some [{ ts := "150.000001" }, { ts := "160.000001" }] } := by
  have h := c8_thread_expansion
    (fun ts =>
      if ts = "100.000001" then
        Except.ok [{ ts := "100.000001" }, { ts := "150.000001" }, { ts := "160.000001" }]
      else Except.error "unused")
    [{ base := { ts := "100.000001", reply_count := some 2 } },
      { base := { ts := "200.000001" } },
      { base := { ts := "300.000001" } }]
    0
    { base := { ts := "100.000001", reply_count := some 2 } }
    [{ ts := "100.000001" }, { ts := "150.000001" }, { ts := "160.000001" }]
    rfl (by decide) rfl
  exact h

/-! ## Claim C4 -/

/-- C4: in `files download-all`, every file whose mode is `tombstone` is
never downloaded: its outcome is `skipped`, and the three reported
counters count exactly the outcomes in their own bucket, so a tombstone
is counted under skipped and never under failed or downloaded. -/
theorem c4_tombstone_skip (fetchOk : String → Bool) (fs0 : List String) (dir : String)
    (files : List SlackFile) (i : Nat) (f : SlackFile)
    (hf : files[i]? = some f) (hmode : f.mode = some "tombstone") :
    ((downloadAll fetchOk fs0 dir files).2)[i]? = some Outcome.skipped
    ∧ (downloadAll fetchOk fs0 dir files).1.downloadedCount
        = ((downloadAll fetchOk fs0 dir files).2).countP Outcome.isDownloaded
    ∧ (downloadAll fetchOk fs0 dir files).1.failedCount
        = ((downloadAll fetchOk fs0 dir files).2).countP Outcome.isFailed
    ∧ (downloadAll fetchOk fs0 dir files).1.skippedCount
        = ((downloadAll fetchOk fs0 dir files).2).countP Outcome.isSkipped := by
  obtain ⟨st', hst⟩ := dlRun_outcome_exists fetchOk dir files { fsPaths := fs0 } i f hf
  obtain ⟨h1, h2, h3⟩ := dlRun_counters fetchOk dir files { fsPaths := fs0 }
  refine ⟨?_, ?_, ?_, ?_⟩
  · unfold downloadAll
    rw [hst, dlStep_tombstone_skipped hmode]
  · simpa [downloadAll] using h1
  · simpa [downloadAll] using h2
  · simpa [downloadAll] using h3

/-- Witness for C4: a tombstone file with a URL is skipped while a normal
file in the same batch downloads. -/
theorem c4_tombstone_skip_witness :
    ((downloadAll (fun _ => true) [] "./downloads"
      [{ id := "F1", name := some "gone.txt", url_private := some "u1",
          mode := some "tombstone" },
        { id := "F2", name := some "ok.txt", url_private := some "u2" }]).2)[0]?
      = some Outcome.skipped
    ∧ (downloadAll (fun _ => true) [] "./downloads"
        [{ id := "F1", name := some "gone.txt", url_private := some "u1",
            mode := some "tombstone" },
          { id := "F2", name := some "ok.txt", url_private := some "u2" }]).1.skippedCount
      = ((downloadAll (fun _ => true) [] "./downloads"
          [{ id := "F1", name := some "gone.txt", url_private := some "u1",
              mode := some "tombstone" },
            { id := "F2", name := some "ok.txt", url_private := some "u2" }]).2).countP
          Outcome.isSkipped := by
  have h := c4_tombstone_skip (fun _ => true) [] "./downloads"
    [{ id := "F1", name := some "gone.txt", url_private := some "u1",
        mode := some "tombstone" },
      { id := "F2", name := some "ok.txt", url_private := some "u2" }]
    0
    { id := "F1", name := some "gone.txt", url_private := some "u1",
      mode := some "tombstone" }
    rfl rfl
  exact ⟨h.1, h.2.2.2⟩

/-! ## Claim C6 -/

/-- C6: in every batch loop (thread expansion, transcript fetch, per-file
download, per-conversation mark-read) a remote failure on one item does
not abort the loop: the loop still emits a result for every item, the
failing item is left un-enriched or counted as failed, any other item
with a successful fetch is still enriched, and the download loop ends in
an aggregate report whose three counters sum to the number of listed
files. -/
theorem c6_partial_failure_isolation
    (getReplies : String → Except String (List SlackMessage))
    (fetchContent : String → Except String String)
    (fetchOk : String → Bool) (markConversation : String → String → Bool)
    (msgs : List EnrichedMessage) (j k : Nat) (mj mk : EnrichedMessage)
    (rs : List SlackMessage) (es : String)
    (files : List SlackFile) (fs0 : List String) (dir : String) (i : Nat) (f : SlackFile)
    (entries : List (String × String)) (p : Nat) (e : String × String)
    (hmj : msgs[j]? = some mj) (hmk : msgs[k]? = some mk)
    (hjfail : getReplies mj.base.ts = Except.error es)
    (hkok : getReplies mk.base.ts = Except.ok rs)
    (hkrc : mk.base.reply_count.getD 0 > 0)
    (hcfail : ∀ fl ∈ mj.base.files, ∀ s, fetchContent (strVal fl.vtt) ≠ Except.ok s)
    (hfi : files[i]? = some f) (hfurl : downloadUrl f ≠ "")
    (hfmode : f.mode ≠ some "tombstone") (hffail : fetchOk (downloadUrl f) = false)
    (hep : entries[p]? = some e) :
    (fetchThreadRepliesForMessages getReplies msgs).length = msgs.length
    ∧ (fetchThreadRepliesForMessages getReplies msgs)[j]? = some mj
    ∧ (fetchThreadRepliesForMessages getReplies msgs)[k]?
        = some { mk with thread_replies := some (rs.drop 1) }
    ∧ (fetchTranscriptsForMessages fetchContent msgs).length = msgs.length
    ∧ (fetchTranscriptsForMessages fetchContent msgs)[j]? = some mj
    ∧ (fetchTranscriptsForMessages fetchContent msgs)[k]?
        = some (attachTranscript fetchContent mk)
    ∧ ((downloadAll fetchOk fs0 dir files).2).length = files.length
    ∧ ((downloadAll fetchOk fs0 dir files).2)[i]? = some Outcome.failed
    ∧ (downloadAll fetchOk fs0 dir files).1.downloadedCount
        + (downloadAll fetchOk fs0 dir files).1.failedCount
        + (downloadAll fetchOk fs0 dir files).1.skippedCount = files.length
    ∧ (markAll markConversation entries).length = entries.length
    ∧ (markAll markConversation entries)[p]? = some (e, markConversation e.1 e.2) := by
  obtain ⟨st', hst⟩ := dlRun_outcome_exists fetchOk dir files { fsPaths := fs0 } i f hfi
  obtain ⟨h1, h2, h3⟩ := dlRun_counters fetchOk dir files { fsPaths := fs0 }
  refine ⟨?_, ?_, ?_, ?_, ?_, ?_, ?_, ?_, ?_, ?_, ?_⟩
  · simp [fetchThreadRepliesForMessages]
  · rw [fetchThreadRepliesForMessages, List.getElem?_map, hmj, Option.map_some',
      expandThread_of_error hjfail]
  · rw [fetchThreadRepliesForMessages, List.getElem?_map, hmk, Option.map_some',
      expandThread_of_ok hkrc hkok]
  · simp [fetchTranscriptsForMessages]
  · rw [fetchTranscriptsForMessages, List.getElem?_map, hmj, Option.map_some',
      attachTranscript_of_error hcfail]
  · rw [fetchTranscriptsForMessages, List.getElem?_map, hmk, Option.map_some']
  · exact dlRun_length fetchOk dir files { fsPaths := fs0 }
  · unfold downloadAll
    rw [hst, dlStep_failed_outcome hfurl hfmode hffail]
  · have hsum := countP_outcomes_sum ((dlRun fetchOk dir { fsPaths := fs0 } files).2)
    have hlen := dlRun_length fetchOk dir files { fsPaths := fs0 }
    have hz1 : ({ fsPaths := fs0 } : DlState).downloadedCount = 0 := rfl
    have hz2 : ({ fsPaths := fs0 } : DlState).failedCount = 0 := rfl
    have hz3 : ({ fsPaths := fs0 } : DlState).skippedCount = 0 := rfl
    unfold downloadAll
    omega
  · simp [markAll]
  · rw [markAll, List.getElem?_map, hep, Option.map_some']

/-- Witness for C6: a two-message batch where the reply and transcript
fetches fail for the first message and the reply fetch succeeds for the
second; a one-file batch whose download fails; a mark-read loop over one
entry.  The failing items are isolated and everything else proceeds. -/
theorem c6_partial_failure_isolation_witness :
    (fetchThreadRepliesForMessages
        (fun ts => if ts = "200" then Except.ok [{ ts := "200" }, { ts := "201" }]
          else Except.error "net")
        [{ base := { ts := "100", reply_count := some 1,
                     files := [{ id := "FV", transcription_status := some "complete",
                                 vtt := some "v1" }] } },
          { base := { ts := "200", reply_count := some 1 } }])[0]?
      = some { base := { ts := "100", reply_count := some 1,
                         files := [{ id := "FV", transcription_status := some "complete",
                                     vtt := some "v1" }] } }
    ∧ (fetchThreadRepliesForMessages
        (fun ts => if ts = "200" then Except.ok [{ ts := "200" }, { ts := "201" }]
          else Except.error "net")
        [{ base := { ts := "100", reply_count := some 1,
                     files := [{ id := "FV", transcription_status := some "complete",
                                 vtt := some "v1" }] } },
          { base := { ts := "200", reply_count := some 1 } }])[1]?
      = some { base := { ts := "200", reply_count := some 1 },
               thread_replies := some [{ ts := "201" }] }
    ∧ ((downloadAll (fun _ => false) [] "./downloads"
        [{ id := "F1", name := some "a.txt", url_private := some "u1" }]).2)[0]?
      = some Outcome.failed
    ∧ (downloadAll (fun _ => false) [] "./downloads"
        [{ id := "F1", name := some "a.txt", url_private := some "u1" }]).1.downloadedCount
      + (downloadAll (fun _ => false) [] "./downloads"
          [{ id := "F1", name := some "a.txt", url_private := some "u1" }]).1.failedCount
      + (downloadAll (fun _ => false) [] "./downloads"
          [{ id := "F1", name := some "a.txt", url_private := some "u1" }]).1.skippedCount
      = 1
    ∧ (markAll (fun _ _ => true) [("C1", "103")])[0]? = some (("C1", "103"), true) := by
  have h := c6_partial_failure_isolation
    (fun ts => if ts = "200" then Except.ok [{ ts := "200" }, { ts := "201" }]
      else Except.error "net")
    (fun _ => Except.error "net")
    (fun _ => false) (fun _ _ => true)
    [{ base := { ts := "100", reply_count := some 1,
                 files := [{ id := "FV", transcription_status := some "complete",
                             vtt := some "v1" }] } },
      { base := { ts := "200", reply_count := some 1 } }]
    0 1
    { base := { ts := "100", reply_count := some 1,
                files := [{ id := "FV", transcription_status := some "complete",
                            vtt := some "v1" }] } }
    { base := { ts := "200", reply_count := some 1 } }
    [{ ts := "200" }, { ts := "201" }] "net"
    [{ id := "F1", name := some "a.txt", url_private := some "u1" }]
    [] "./downloads" 0
    { id := "F1", name := some "a.txt", url_private := some "u1" }
    [("C1", "103")] 0 ("C1", "103")
    rfl rfl rfl rfl (by decide)
    (by intro fl hfl s hc; exact Except.noConfusion hc)
    rfl (by decide) (by decide) rfl rfl
  obtain ⟨_, h2, h3, _, _, _, _, h8, h9, _, h11⟩ := h
  exact ⟨h2, h3, h8, h9, h11⟩

/-! ## Lemmas for the VTT reduction (claim C7) -/

/-- The tag stripper leaves a string without `<` unchanged. -/
theorem stripTagsGo_of_no_tag : ∀ (fuel : Nat) (l : List Char),
    (∀ c ∈ l, c ≠ '<') → stripTagsGo fuel l = l := by
  intro fuel
  induction fuel with
  | zero =>
    intro l _
    cases l with
    | nil => rfl
    | cons c rest => rfl
  | succ fuel ih =>
    intro l h
    cases l with
    | nil => rfl
    | cons c rest =>
      have hc : c ≠ '<' := h c (List.mem_cons_self c rest)
      simp only [stripTagsGo, if_neg hc]
      rw [ih rest (fun d hd => h d (List.mem_cons_of_mem _ hd))]

/-- A character list whose trim is empty is all whitespace. -/
theorem trimChars_all_ws {l : List Char} (h : trimChars l = []) :
    ∀ c ∈ l, c.isWhitespace := by
  unfold trimChars at h
  have h1 : (l.dropWhile Char.isWhitespace).reverse.dropWhile Char.isWhitespace = [] :=
    List.reverse_eq_nil_iff.mp h
  have h3 : ∀ c ∈ l.dropWhile Char.isWhitespace, c.isWhitespace := fun c hc =>
    List.dropWhile_eq_nil_iff.mp h1 c (List.mem_reverse.mpr hc)
  intro c hc
  rw [← List.takeWhile_append_dropWhile Char.isWhitespace l] at hc
  rcases List.mem_append.mp hc with h4 | h4
  · exact List.mem_takeWhile_imp h4
  · exact h3 c h4

/-- Whitespace is never the tag opener. -/
theorem ws_ne_tag {c : Char} (h : c.isWhitespace) : c ≠ '<' := by
  intro he
  subst he
  exact absurd h (by decide)

/-- A line whose trim is empty still trims to empty after tag
stripping. -/
theorem vtt_line_empty {line : String} (h : jsTrim line = "") :
    jsTrim (stripTags line) = "" := by
  have hdata : trimChars line.data = [] := congrArg String.data h
  have hnt : ∀ c ∈ line.data, c ≠ '<' := fun c hc => ws_ne_tag (trimChars_all_ws hdata c hc)
  have hid : stripTags line = line := by
    unfold stripTags
    rw [stripTagsGo_of_no_tag _ _ hnt]
  rw [hid, h]

/-- A blank line is dropped by the source filter. -/
theorem keepVttLine_of_empty {line : String} (h : jsTrim line = "") :
    keepVttLine line = false := by
  simp only [keepVttLine]
  rw [h]
  decide

/-- A blank line passes the spec-worded filter (it is discarded later, at
the now-empty stage). -/
theorem vttSpecKeep_of_empty {line : String} (h : jsTrim line = "") :
    vttSpecKeep line = true := by
  simp only [vttSpecKeep]
  rw [h]
  decide

/-- On lines with nonempty trim the two filters coincide. -/
theorem keepVttLine_eq_spec {line : String} (h : ¬ jsTrim line = "") :
    keepVttLine line = vttSpecKeep line := by
  simp only [keepVttLine, vttSpecKeep]
  rw [show (jsTrim line == "") = false by rw [beq_eq_false_iff_ne]; exact h]
  simp

/-- The two filter-map-filter pipelines agree on every line list. -/
theorem vtt_pipeline_eq : ∀ lines : List String,
    (((lines.filter keepVttLine).map (fun line => jsTrim (stripTags line))).filter
        (fun s => !(s == "")))
      = (((lines.filter vttSpecKeep).map (fun line => jsTrim (stripTags line))).filter
        (fun s => !(s == ""))) := by
  intro lines
  induction lines with
  | nil => rfl
  | cons l rest ih =>
    by_cases h : jsTrim l = ""
    · rw [List.filter_cons, List.filter_cons, keepVttLine_of_empty h, vttSpecKeep_of_empty h]
      simp only [Bool.false_eq_true, if_false, if_true, List.map_cons, List.filter_cons,
        vtt_line_empty h]
      simpa using ih
    · rw [List.filter_cons, List.filter_cons, keepVttLine_eq_spec h]
      by_cases hs : vttSpecKeep l = true
      · simp only [hs, if_true, List.map_cons, List.filter_cons]
        rw [ih]
      · simp only [show vttSpecKeep l = false from Bool.eq_false_iff.mpr hs,
          Bool.false_eq_true, if_false]
        exact ih

/-! ## Claim C7 -/

/-- C7: `parseVttToText` reduces a WebVTT payload by splitting into lines,
dropping header lines, arrow cue-timing lines and pure-digit sequence
lines, stripping angle-bracket markup, discarding then-empty lines, and
joining survivors with one space (agreement with the spec-worded
reduction); in particular the spec's scenario input yields exactly
"Hello world". -/
theorem c7_parse_vtt_to_text :
    (∀ v, parseVttToText v = vttSpecReduction v)
    ∧ parseVttToText "WEBVTT\n\n1\n00:00:00.000 --> 00:00:02.000\nHello <b>world</b>\n"
        = "Hello world" := by
  constructor
  · intro v
    unfold parseVttToText vttSpecReduction
    exact congrArg (String.intercalate " ") (vtt_pipeline_eq (splitLines v))
  · decide

/-! ## Lemmas for the unread watermark map (claim C1) -/

/-- `Map.set` on a key absent from the map appends the pair. -/
theorem mapSet_append {m : List (String × String)} {k v : String}
    (h : ∀ p ∈ m, p.1 ≠ k) : mapSet m k v = m ++ [(k, v)] := by
  unfold mapSet
  rw [show (m.any fun p => p.1 == k) = false by
    rw [List.any_eq_false]
    intro p hp
    simpa using h p hp]
  simp

/-- With pairwise-distinct conversation ids the unread loop builds exactly
the per-conversation entries, in order, after the starting accumulator. -/
theorem latestTimestamps_eq_filterMap (glr : String → Option String)
    (gh : String → List SlackMessage) :
    ∀ (channels : List SlackUnreadChannel) (acc : List (String × String)),
    (∀ ch ∈ channels, ∀ p ∈ acc, p.1 ≠ ch.id) →
    (channels.map SlackUnreadChannel.id).Nodup →
    channels.foldl (trackChannel glr gh) acc
      = acc ++ channels.filterMap (unreadEntry glr gh) := by
  intro channels
  induction channels with
  | nil => intro acc _ _; simp
  | cons ch rest ih =>
    intro acc hdisj hnd
    simp only [List.map_cons, List.nodup_cons] at hnd
    obtain ⟨hnotin, hndr⟩ := hnd
    simp only [List.foldl_cons, List.filterMap_cons]
    by_cases he : (channelShown glr gh ch.id).isEmpty = true
    · rw [show trackChannel glr gh acc ch = acc by simp [trackChannel, he],
        show unreadEntry glr gh ch = none by simp [unreadEntry, he]]
      exact ih acc (fun c hc p hp => hdisj c (List.mem_cons_of_mem _ hc) p hp) hndr
    · rw [show trackChannel glr gh acc ch
          = mapSet acc ch.id (latestTsOf (channelShown glr gh ch.id)) by
            simp [trackChannel, he],
        show unreadEntry glr gh ch
          = some (ch.id, latestTsOf (channelShown glr gh ch.id)) by
            simp [unreadEntry, he]]
      rw [mapSet_append (fun p hp => hdisj ch (List.mem_cons_self _ _) p hp)]
      rw [ih (acc ++ [(ch.id, latestTsOf (channelShown glr gh ch.id))])
        (fun c hc p hp => by
          rcases List.mem_append.mp hp with hp' | hp'
          · exact hdisj c (List.mem_cons_of_mem _ hc) p hp'
          · have hpe : p = (ch.id, latestTsOf (channelShown glr gh ch.id)) := by
              simpa using hp'
            subst hpe
            intro hcontra
            have hch : ch.id = c.id := hcontra
            exact hnotin (hch.symm ▸ List.mem_map_of_mem SlackUnreadChannel.id hc))
        hndr]
      simp

/-- Keys absent from a channel list are absent from its entry map. -/
theorem lookup_filterMap_not_mem (glr : String → Option String)
    (gh : String → List SlackMessage) :
    ∀ (rest : List SlackUnreadChannel) (k : String),
    k ∉ rest.map SlackUnreadChannel.id →
    (rest.filterMap (unreadEntry glr gh)).lookup k = none := by
  intro rest
  induction rest with
  | nil => intro k _; rfl
  | cons ch rest ih =>
    intro k hk
    simp only [List.map_cons, List.mem_cons] at hk
    push_neg at hk
    obtain ⟨hk1, hk2⟩ := hk
    simp only [List.filterMap_cons]
    by_cases he : (channelShown glr gh ch.id).isEmpty = true
    · rw [show unreadEntry glr gh ch = none by simp [unreadEntry, he]]
      exact ih k hk2
    · rw [show unreadEntry glr gh ch
          = some (ch.id, latestTsOf (channelShown glr gh ch.id)) by
            simp [unreadEntry, he]]
      simp only [List.lookup]
      rw [show (k == ch.id) = false by rw [beq_eq_false_iff_ne]; exact hk1]
      exact ih k hk2

/-- Looking up a listed conversation in the entry map yields exactly that
conversation's own entry. -/
theorem lookup_filterMap_mem (glr : String → Option String)
    (gh : String → List SlackMessage) :
    ∀ (channels : List SlackUnreadChannel) (ch : SlackUnreadChannel),
    (channels.map SlackUnreadChannel.id).Nodup → ch ∈ channels →
    (channels.filterMap (unreadEntry glr gh)).lookup ch.id
      = Option.map Prod.snd (unreadEntry glr gh ch) := by
  intro channels
  induction channels with
  | nil => intro ch _ h; simp at h
  | cons c0 rest ih =>
    intro ch hnd hmem
    simp only [List.map_cons, List.nodup_cons] at hnd
    obtain ⟨hnotin, hndr⟩ := hnd
    simp only [List.filterMap_cons]
    rcases List.mem_cons.mp hmem with heq | hmem'
    · subst heq
      by_cases he : (channelShown glr gh ch.id).isEmpty = true
      · rw [show unreadEntry glr gh ch = none by simp [unreadEntry, he]]
        simp only [Option.map_none']
        exact lookup_filterMap_not_mem glr gh rest ch.id hnotin
      · rw [show unreadEntry glr gh ch
            = some (ch.id, latestTsOf (channelShown glr gh ch.id)) by
              simp [unreadEntry, he]]
        simp [List.lookup]
    · have hne : ch.id ≠ c0.id := by
        intro h
        exact hnotin (h ▸ List.mem_map_of_mem SlackUnreadChannel.id hmem')
      by_cases he : (channelShown glr gh c0.id).isEmpty = true
      · rw [show unreadEntry glr gh c0 = none by simp [unreadEntry, he]]
        exact ih ch hndr hmem'
      · rw [show unreadEntry glr gh c0
            = some (c0.id, latestTsOf (channelShown glr gh c0.id)) by
              simp [unreadEntry, he]]
        simp only [List.lookup]
        rw [show (ch.id == c0.id) = false by rw [beq_eq_false_iff_ne]; exact hne]
        exact ih ch hndr hmem'

/-! ## Claim C1 -/

/-- C1: in `conversations unread --show --mark-read`, for every listed
conversation (ids pairwise distinct, watermark not below `"0"`): if no
unread message is shown for it, it has no entry in the mark-read map; if
at least one is shown, its entry is exactly the maximum shown `ts` of
that conversation — a `ts` of one of its own shown messages, not below
any shown message's `ts`. -/
theorem c1_unread_watermark
    (getLastRead : String → Option String) (getHistory : String → List SlackMessage)
    (channels : List SlackUnreadChannel) (ch : SlackUnreadChannel)
    (hnd : (channels.map SlackUnreadChannel.id).Nodup) (hmem : ch ∈ channels)
    (h0 : jsLt (resolveLastRead (getLastRead ch.id)) "0" = false) :
    (channelShown getLastRead getHistory ch.id = [] →
      (latestTimestamps getLastRead getHistory channels).lookup ch.id = none)
    ∧ (channelShown getLastRead getHistory ch.id ≠ [] →
      (latestTimestamps getLastRead getHistory channels).lookup ch.id
        = some (latestTsOf (channelShown getLastRead getHistory ch.id))
      ∧ latestTsOf (channelShown getLastRead getHistory ch.id)
          ∈ (channelShown getLastRead getHistory ch.id).map SlackMessage.ts
      ∧ ∀ m ∈ channelShown getLastRead getHistory ch.id,
          jsLt (latestTsOf (channelShown getLastRead getHistory ch.id)) m.ts = false) := by
  have hlk : (latestTimestamps getLastRead getHistory channels).lookup ch.id
      = Option.map Prod.snd (unreadEntry getLastRead getHistory ch) := by
    rw [latestTimestamps,
      latestTimestamps_eq_filterMap getLastRead getHistory channels [] (by simp) hnd,
      List.nil_append]
    exact lookup_filterMap_mem getLastRead getHistory channels ch hnd hmem
  constructor
  · intro hempty
    rw [hlk, show unreadEntry getLastRead getHistory ch = none by
      simp [unreadEntry, hempty]]
    rfl
  · intro hne
    have hee : (channelShown getLastRead getHistory ch.id).isEmpty = false := by
      simpa [List.isEmpty_iff] using hne
    refine ⟨?_, ?_, ?_⟩
    · rw [hlk, show unreadEntry getLastRead getHistory ch
        = some (ch.id, latestTsOf (channelShown getLastRead getHistory ch.id)) by
          simp [unreadEntry, hee]]
      rfl
    · rcases foldl_tsMax_mem (channelShown getLastRead getHistory ch.id) "0" with hc | hc
      · exfalso
        obtain ⟨m, hm⟩ := List.exists_mem_of_ne_nil _ hne
        have hub := foldl_tsMax_ub (channelShown getLastRead getHistory ch.id) "0" m hm
        have hflt : jsLt (resolveLastRead (getLastRead ch.id)) m.ts = true := by
          have hmf := hm
          simp only [channelShown, unreadShown, List.mem_filter] at hmf
          exact hmf.2
        have h0m : jsLt "0" m.ts = true := jsLt_of_le_of_lt h0 hflt
        rw [hc, h0m] at hub
        exact absurd hub (by simp)
      · exact hc
    · intro m hm
      exact foldl_tsMax_ub _ "0" m hm

/-- Witness for C1: two conversations, one with shown unread messages and
one without; the map holds exactly the first conversation's own maximum
shown `ts`. -/
theorem c1_unread_watermark_witness :
    (latestTimestamps (fun _ => some "100")
      (fun cid => if cid = "C1" then [{ ts := "103" }, { ts := "101" }, { ts := "099" }]
        else [{ ts := "100" }])
      [{ id := "C1", unread_count := 2 }, { id := "C2", unread_count := 1 }]).lookup "C1"
      = some "103"
    ∧ (latestTimestamps (fun _ => some "100")
      (fun cid => if cid = "C1" then [{ ts := "103" }, { ts := "101" }, { ts := "099" }]
        else [{ ts := "100" }])
      [{ id := "C1", unread_count := 2 }, { id := "C2", unread_count := 1 }]).lookup "C2"
      = none := by
  constructor
  · have h := c1_unread_watermark (fun _ => some "100")
      (fun cid => if cid = "C1" then [{ ts := "103" }, { ts := "101" }, { ts := "099" }]
        else [{ ts := "100" }])
      [{ id := "C1", unread_count := 2 }, { id := "C2", unread_count := 1 }]
      { id := "C1", unread_count := 2 }
      (by decide) (by decide) (by decide)
    rw [(h.2 (by decide)).1]
    decide
  · have h := c1_unread_watermark (fun _ => some "100")
      (fun cid => if cid = "C1" then [{ ts := "103" }, { ts := "101" }, { ts := "099" }]
        else [{ ts := "100" }])
      [{ id := "C1", unread_count := 2 }, { id := "C2", unread_count := 1 }]
      { id := "C2", unread_count := 1 }
      (by decide) (by decide) (by decide)
    exact h.1 (by decide)

/-! ## Lemmas for collision-safe path resolution (claim C3) -/

/-- The splitter never returns an empty part list. -/
theorem jsSplitGo_ne_nil (sep : Char) : ∀ (l acc : List Char), jsSplitGo sep l acc ≠ [] := by
  intro l
  induction l with
  | nil => intro acc; simp [jsSplitGo]
  | cons c rest ih =>
    intro acc
    by_cases h : c = sep
    · simp [jsSplitGo, h]
    · simp only [jsSplitGo, if_neg h]
      exact ih (c :: acc)

/-- Unfolding of `joinWith` on a two-or-more part list. -/
theorem joinWith_cons_cons (sep : Char) (p q : String) (qs : List String) :
    joinWith sep (p :: q :: qs) = p.data ++ sep :: joinWith sep (q :: qs) := rfl

/-- Joining the parts of a split rebuilds the original characters. -/
theorem joinWith_jsSplitGo (sep : Char) : ∀ (l acc : List Char),
    joinWith sep (jsSplitGo sep l acc) = acc.reverse ++ l := by
  intro l
  induction l with
  | nil => intro acc; simp [jsSplitGo, joinWith]
  | cons c rest ih =>
    intro acc
    by_cases h : c = sep
    · simp only [jsSplitGo, if_pos h]
      obtain ⟨q, qs, hqs⟩ : ∃ q qs, jsSplitGo sep rest [] = q :: qs := by
        cases hx : jsSplitGo sep rest [] with
        | nil => exact absurd hx (jsSplitGo_ne_nil sep rest [])
        | cons q qs => exact ⟨q, qs, rfl⟩
      rw [hqs, joinWith_cons_cons]
      have hrest := ih []
      rw [hqs] at hrest
      simp only [List.reverse_nil, List.nil_append] at hrest
      rw [hrest, h]
    · simp only [jsSplitGo, if_neg h]
      rw [ih (c :: acc)]
      simp

/-- A list containing the separator splits into at least two parts. -/
theorem jsSplitGo_length_ge_two (sep : Char) : ∀ (l acc : List Char), sep ∈ l →
    2 ≤ (jsSplitGo sep l acc).length := by
  intro l
  induction l with
  | nil => intro acc h; simp at h
  | cons c rest ih =>
    intro acc hmem
    by_cases h : c = sep
    · simp only [jsSplitGo, if_pos h, List.length_cons]
      have h1 : 0 < (jsSplitGo sep rest []).length :=
        List.length_pos.mpr (jsSplitGo_ne_nil sep rest [])
      omega
    · have hr : sep ∈ rest := by
        rcases List.mem_cons.mp hmem with h1 | h1
        · exact absurd h1.symm h
        · exact h1
      simp only [jsSplitGo, if_neg h]
      exact ih (c :: acc) hr

/-- Splitting off the last part of a join. -/
theorem joinWith_append_last (sep : Char) : ∀ (ps : List String) (p : String), ps ≠ [] →
    joinWith sep (ps ++ [p]) = joinWith sep ps ++ sep :: p.data := by
  intro ps
  induction ps with
  | nil => intro p h; exact absurd rfl h
  | cons q qs ih =>
    intro p _
    cases qs with
    | nil => simp [joinWith]
    | cons q' qs' =>
      simp only [List.cons_append]
      rw [joinWith_cons_cons, joinWith_cons_cons]
      have hih := ih p (by simp)
      simp only [List.cons_append] at hih
      rw [hih]
      simp

/-- The last part of a nonempty list with a default is its last part. -/
theorem getLastD_of_ne_nil {l : List String} (h : l ≠ []) : l.getLastD "" = l.getLast h := by
  rw [List.getLastD_eq_getLast?, List.getLast?_eq_getLast l h]
  rfl

/-- Stem and extension of a dotted file name concatenate back to the
name. -/
theorem name_stem_ext {fileName : String} (h : fileName.data.contains '.') :
    (vNameWithoutExt fileName).data ++ (vExt fileName).data = fileName.data := by
  have hmem : '.' ∈ fileName.data := by simpa using h
  unfold vNameWithoutExt vExt
  rw [if_pos h, if_pos h]
  have hne : jsSplit '.' fileName ≠ [] := jsSplitGo_ne_nil '.' fileName.data []
  have hlen2 : 2 ≤ (jsSplit '.' fileName).length :=
    jsSplitGo_length_ge_two '.' fileName.data [] hmem
  have hdl : (jsSplit '.' fileName).dropLast ≠ [] := by
    apply List.ne_nil_of_length_pos
    rw [List.length_dropLast]
    omega
  have hsplit : (jsSplit '.' fileName).dropLast ++ [(jsSplit '.' fileName).getLast hne]
      = jsSplit '.' fileName := List.dropLast_append_getLast hne
  have hjoin : joinWith '.' (jsSplit '.' fileName) = fileName.data := by
    have := joinWith_jsSplitGo '.' fileName.data []
    simpa [jsSplit] using this
  calc (joinDot (jsSplit '.' fileName).dropLast).data
        ++ ('.' :: ((jsSplit '.' fileName).getLastD "").data)
      = joinWith '.' (jsSplit '.' fileName).dropLast
        ++ '.' :: ((jsSplit '.' fileName).getLast hne).data := by
        rw [getLastD_of_ne_nil hne]
        rfl
    _ = joinWith '.' ((jsSplit '.' fileName).dropLast
        ++ [(jsSplit '.' fileName).getLast hne]) :=
        (joinWith_append_last '.' _ _ hdl).symm
    _ = joinWith '.' (jsSplit '.' fileName) := by rw [hsplit]
    _ = fileName.data := hjoin

/-- Character data of a string concatenation. -/
theorem string_data_append (a b : String) : (a ++ b).data = a.data ++ b.data := rfl

/-- A decimal digit renders to its character and back. -/
theorem digitChar_toNat {d : Nat} (h : d < 10) : (Nat.digitChar d).toNat = 48 + d := by
  interval_cases d <;> rfl

/-- Reading back the rendered decimal digits returns the number, given
enough fuel. -/
theorem valDigits_decReprGo : ∀ (fuel n : Nat), n < 10 ^ fuel →
    valDigits (decReprGo fuel n) = n := by
  intro fuel
  induction fuel with
  | zero =>
    intro n h
    interval_cases n
    rfl
  | succ fuel ih =>
    intro n h
    by_cases hn : n < 10
    · simp only [decReprGo, if_pos hn]
      simp only [valDigits, List.foldl]
      rw [digitChar_toNat hn]
      omega
    · simp only [decReprGo, if_neg hn]
      have hdiv : n / 10 < 10 ^ fuel := by
        rw [Nat.div_lt_iff_lt_mul (by norm_num)]
        calc n < 10 ^ (fuel + 1) := h
          _ = 10 ^ fuel * 10 := by ring
      have hval := ih (n / 10) hdiv
      simp only [valDigits, List.foldl_append, List.foldl] at hval ⊢
      rw [hval, digitChar_toNat (Nat.mod_lt n (by norm_num))]
      omega

/-- The decimal rendering of the collision counter is injective. -/
theorem decRepr_inj : Function.Injective decRepr := by
  intro a b h
  have hd : decReprGo (a + 1) a = decReprGo (b + 1) b := congrArg String.data h
  have hpow : ∀ n : Nat, n < 10 ^ (n + 1) := fun n =>
    lt_of_lt_of_le (Nat.lt_pow_self (by norm_num) n)
      (Nat.pow_le_pow_right (by norm_num) (Nat.le_succ n))
  have ha := valDigits_decReprGo (a + 1) a (hpow a)
  have hb := valDigits_decReprGo (b + 1) b (hpow b)
  rw [hd, hb] at ha
  exact ha.symm

/-- Character data of candidate path `0`. -/
theorem candidate_zero_data (dir name : String) :
    (candidate dir name 0).data = dir.data ++ '/' :: name.data := by
  show ((dir ++ "/" ++ name)).data = dir.data ++ '/' :: name.data
  rw [string_data_append, string_data_append]
  simp

/-- Character data of candidate path `k ≥ 1`. -/
theorem candidate_succ_data (dir name : String) (k : Nat) (hk : k ≠ 0) :
    (candidate dir name k).data
      = dir.data ++ '/'
        :: ((vNameWithoutExt name).data
          ++ '_' :: ((decRepr k).data ++ (vExt name).data)) := by
  unfold candidate
  rw [if_neg hk]
  show ((dir ++ "/" ++ (vNameWithoutExt name ++ "_" ++ decRepr k ++ vExt name))).data = _
  simp only [string_data_append]
  simp

/-- Candidate paths for one file name are pairwise distinct across
counters. -/
theorem candidate_inj (dir name : String) : Function.Injective (candidate dir name) := by
  have key : ∀ k : Nat, k ≠ 0 → candidate dir name 0 ≠ candidate dir name k := by
    intro k hk hcontra
    have hd := congrArg String.data hcontra
    rw [candidate_zero_data, candidate_succ_data dir name k hk] at hd
    have h1 := List.append_cancel_left hd
    injection h1 with _ h2
    by_cases hdot : name.data.contains '.'
    · have hse := name_stem_ext hdot
      rw [← hse] at h2
      have h3 := List.append_cancel_left h2
      have hlen := congrArg List.length h3
      simp at hlen
      omega
    · have hne : vNameWithoutExt name = name := by
        unfold vNameWithoutExt
        rw [if_neg hdot]
      have hee : vExt name = "" := by
        unfold vExt
        rw [if_neg hdot]
      rw [hne, hee] at h2
      have hlen := congrArg List.length h2
      simp [string_data_append] at hlen
  intro k1 k2 h
  by_cases h1 : k1 = 0 <;> by_cases h2 : k2 = 0
  · rw [h1, h2]
  · exact absurd (h1 ▸ h) (key k2 h2)
  · exact absurd (h2 ▸ h.symm) (key k1 h1)
  · have hd := congrArg String.data h
    rw [candidate_succ_data dir name k1 h1, candidate_succ_data dir name k2 h2] at hd
    have ha := List.append_cancel_left hd
    injection ha with _ hb
    have hc := List.append_cancel_left hb
    injection hc with _ he
    have hf := List.append_cancel_right he
    exact decRepr_inj (string_data_inj hf)

/-- The `while (existsSync(...))` loop returns the first free candidate:
if candidates `counter, ..., counter + j - 1` are taken and
`counter + j` is free, with enough fuel the loop lands on
`counter + j`. -/
theorem resolveLoop_first_free (fsPaths : List String) (dir name : String) :
    ∀ (j fuel counter : Nat), j ≤ fuel →
    (∀ i, i < j → candidate dir name (counter + i) ∈ fsPaths) →
    candidate dir name (counter + j) ∉ fsPaths →
    resolveLoop fsPaths dir name fuel counter = candidate dir name (counter + j) := by
  intro j
  induction j with
  | zero =>
    intro fuel counter _ _ hfree
    cases fuel with
    | zero => rfl
    | succ fuel =>
      simp only [Nat.add_zero] at hfree ⊢
      simp only [resolveLoop]
      rw [if_neg hfree]
  | succ j ih =>
    intro fuel counter hle hin hfree
    cases fuel with
    | zero => omega
    | succ fuel =>
      simp only [resolveLoop]
      rw [if_pos (by simpa using hin 0 (by omega))]
      have hmain := ih fuel (counter + 1) (by omega)
        (fun i hi => by
          have hh := hin (i + 1) (by omega)
          have he : counter + (i + 1) = counter + 1 + i := by omega
          rwa [he] at hh)
        (by
          have he : counter + (j + 1) = counter + 1 + j := by omega
          rwa [he] at hfree)
      rw [hmain]
      have he : counter + 1 + j = counter + (j + 1) := by omega
      rw [he]

/-- Invariant of the download loop over a batch of same-named,
downloadable files: starting with candidates `0..j-1` claimed, the loop
downloads file after file to consecutive candidate paths, claiming each
in turn. -/
theorem dlRun_same_name (fetchOk : String → Bool) (dir name : String) (fs0 : List String)
    (hfs0 : ∀ k, candidate dir name k ∉ fs0) :
    ∀ (files : List SlackFile) (j dc fc sc : Nat),
    (∀ f ∈ files, fileNameOf f = name) →
    (∀ f ∈ files, downloadUrl f ≠ "") →
    (∀ f ∈ files, f.mode ≠ some "tombstone") →
    (∀ f ∈ files, fetchOk (downloadUrl f) = true) →
    (dlRun fetchOk dir
        ⟨((List.range j).map (candidate dir name)).reverse ++ fs0, dc, fc, sc⟩ files).2
      = (List.range' j files.length).map (fun k => Outcome.downloaded (candidate dir name k))
    ∧ (dlRun fetchOk dir
        ⟨((List.range j).map (candidate dir name)).reverse ++ fs0, dc, fc, sc⟩ files).1.fsPaths
      = ((List.range (j + files.length)).map (candidate dir name)).reverse ++ fs0 := by
  intro files
  induction files with
  | nil =>
    intro j dc fc sc _ _ _ _
    exact ⟨rfl, by simp [dlRun]⟩
  | cons f rest ih =>
    intro j dc fc sc hname hurl hmode hfetch
    have hfn : fileNameOf f = name := hname f (List.mem_cons_self _ _)
    have hfu : downloadUrl f ≠ "" := hurl f (List.mem_cons_self _ _)
    have hfm : f.mode ≠ some "tombstone" := hmode f (List.mem_cons_self _ _)
    have hff : fetchOk (downloadUrl f) = true := hfetch f (List.mem_cons_self _ _)
    have hres : resolvePath (((List.range j).map (candidate dir name)).reverse ++ fs0)
        dir name = candidate dir name j := by
      unfold resolvePath
      have hin : ∀ i, i < j → candidate dir name (0 + i)
          ∈ (((List.range j).map (candidate dir name)).reverse ++ fs0) := by
        intro i hi
        simp only [Nat.zero_add]
        exact List.mem_append_left _
          (List.mem_reverse.mpr (List.mem_map_of_mem _ (List.mem_range.mpr hi)))
      have hfree : candidate dir name (0 + j)
          ∉ (((List.range j).map (candidate dir name)).reverse ++ fs0) := by
        simp only [Nat.zero_add]
        intro hc
        rcases List.mem_append.mp hc with hcc | hcc
        · rw [List.mem_reverse] at hcc
          obtain ⟨i, hi, hei⟩ := List.mem_map.mp hcc
          have hieq := candidate_inj dir name hei
          rw [List.mem_range] at hi
          omega
        · exact hfs0 j hcc
      have hmain := resolveLoop_first_free
        (((List.range j).map (candidate dir name)).reverse ++ fs0) dir name j
        ((((List.range j).map (candidate dir name)).reverse ++ fs0).length + 1) 0
        (by
          simp only [List.length_append, List.length_reverse, List.length_map,
            List.length_range]
          omega)
        hin hfree
      simpa using hmain
    have hstep1 : (dlStep fetchOk dir
        ⟨((List.range j).map (candidate dir name)).reverse ++ fs0, dc, fc, sc⟩ f).1
        = ⟨candidate dir name j
            :: (((List.range j).map (candidate dir name)).reverse ++ fs0),
           dc + 1, fc, sc⟩ := by
      simp [dlStep, hfu, hfm, hff, hfn, hres]
    have hstep2 : (dlStep fetchOk dir
        ⟨((List.range j).map (candidate dir name)).reverse ++ fs0, dc, fc, sc⟩ f).2
        = Outcome.downloaded (candidate dir name j) := by
      simp [dlStep, hfu, hfm, hff, hfn, hres]
    have hfs' : candidate dir name j
        :: (((List.range j).map (candidate dir name)).reverse ++ fs0)
        = ((List.range (j + 1)).map (candidate dir name)).reverse ++ fs0 := by
      rw [List.range_succ, List.map_append, List.reverse_append]
      simp
    obtain ⟨ih1, ih2⟩ := ih (j + 1) (dc + 1) fc sc
      (fun f' hf' => hname f' (List.mem_cons_of_mem _ hf'))
      (fun f' hf' => hurl f' (List.mem_cons_of_mem _ hf'))
      (fun f' hf' => hmode f' (List.mem_cons_of_mem _ hf'))
      (fun f' hf' => hfetch f' (List.mem_cons_of_mem _ hf'))
    constructor
    · simp only [dlRun, List.length_cons]
      rw [hstep2, hstep1, hfs', ih1]
      rw [List.range'_succ j rest.length 1, List.map_cons]
    · simp only [dlRun, List.length_cons]
      rw [hstep1, hfs', ih2]
      have harith : j + 1 + rest.length = j + (rest.length + 1) := by omega
      rw [harith]

/-! ## Claim C3 -/

/-- C3: in `files download-all`, a batch of N downloadable files that all
map to the same base name produces N distinct output paths, in
first-collision order — the k-th colliding file gets suffix `_k` before
the extension — and every produced path exists afterwards; freshly
checking existence per candidate makes paths claimed earlier in the batch
respected. -/
theorem c3_dedup_path_resolution (fetchOk : String → Bool) (fs0 : List String)
    (dir name : String) (files : List SlackFile)
    (hname : ∀ f ∈ files, fileNameOf f = name)
    (hurl : ∀ f ∈ files, downloadUrl f ≠ "")
    (hmode : ∀ f ∈ files, f.mode ≠ some "tombstone")
    (hfetch : ∀ f ∈ files, fetchOk (downloadUrl f) = true)
    (hfs0 : ∀ k, candidate dir name k ∉ fs0) :
    (downloadAll fetchOk fs0 dir files).2
      = (List.range files.length).map (fun k => Outcome.downloaded (candidate dir name k))
    ∧ ((List.range files.length).map (candidate dir name)).Nodup
    ∧ ∀ k, k < files.length →
        candidate dir name k ∈ (downloadAll fetchOk fs0 dir files).1.fsPaths := by
  have h := dlRun_same_name fetchOk dir name fs0 hfs0 files 0 0 0 0
    hname hurl hmode hfetch
  have hst : (⟨((List.range 0).map (candidate dir name)).reverse ++ fs0, 0, 0, 0⟩
      : DlState) = { fsPaths := fs0 } := by
    simp
  rw [hst] at h
  obtain ⟨h1, h2⟩ := h
  refine ⟨?_, ?_, ?_⟩
  · unfold downloadAll
    rw [List.range_eq_range']
    exact h1
  · exact (List.nodup_range files.length).map (candidate_inj dir name)
  · intro k hk
    unfold downloadAll
    rw [h2]
    apply List.mem_append_left
    rw [List.mem_reverse]
    refine List.mem_map_of_mem _ (List.mem_range.mpr ?_)
    omega

/-- Witness for C3: three files named `report.txt` into an empty
directory land on `report.txt`, `report_1.txt`, `report_2.txt`, all
present afterwards. -/
theorem c3_dedup_path_resolution_witness :
    (downloadAll (fun _ => true) [] "./downloads"
      [{ id := "F1", name := some "report.txt", url_private := some "u1" },
        { id := "F2", name := some "report.txt", url_private := some "u2" },
        { id := "F3", name := some "report.txt", url_private := some "u3" }]).2
      = [Outcome.downloaded "./downloads/report.txt",
          Outcome.downloaded "./downloads/report_1.txt",
          Outcome.downloaded "./downloads/report_2.txt"]
    ∧ candidate "./downloads" "report.txt" 1
        ∈ (downloadAll (fun _ => true) [] "./downloads"
          [{ id := "F1", name := some "report.txt", url_private := some "u1" },
            { id := "F2", name := some "report.txt", url_private := some "u2" },
            { id := "F3", name := some "report.txt", url_private := some "u3" }]).1.fsPaths := by
  have h := c3_dedup_path_resolution (fun _ => true) [] "./downloads" "report.txt"
    [{ id := "F1", name := some "report.txt", url_private := some "u1" },
      { id := "F2", name := some "report.txt", url_private := some "u2" },
      { id := "F3", name := some "report.txt", url_private := some "u3" }]
    (by decide) (by decide) (by decide) (by decide)
    (fun k hc => List.not_mem_nil _ hc)
  constructor
  · rw [h.1]
    decide
  · exact h.2.2 1 (by norm_num)
